import Mathlib

/-!
Verification of the `Temporal.PlainYearMonth` core
(`js/src/builtin/temporal/PlainYearMonth.cpp`).

The file shallowly embeds the year-month engine: the data model, the
construction/validation path, conversion, comparison, equality, and the
`add`/`subtract` and `until`/`since` arithmetic.  Operations of external
collaborators (calendars, the duration rounder, the ISO-string parser) are
not part of the translated source; they are either kept abstract — the
arithmetic operations take a table of calendar operations as a parameter —
or modelled from the specification's interface contracts, as noted on each
definition.
-/

namespace Temporal

/-- An ISO date triple `(year, month, day)`; the `PlainDate` record of the
source. -/
structure PlainDate where
  year : Int
  month : Int
  day : Int
deriving DecidableEq, Repr

/-- Identifier of a supported builtin calendar (`CalendarId` in the source).
A representative subset of the builtin calendars suffices for the claims. -/
inductive CalendarId where
  | iso8601
  | gregory
  | hebrew
  | japanese
deriving DecidableEq, Repr

/-- Modelled from the spec: every calendar has a canonical identifier
string; two `CalendarRef`s are equal iff their canonical identifier strings
are equal (§3 CalendarRef). -/
def canonicalCalendarId : CalendarId → String
  | .iso8601 => "iso8601"
  | .gregory => "gregory"
  | .hebrew => "hebrew"
  | .japanese => "japanese"

/-- Modelled from the spec: `CalendarEquals(a, b)` compares calendars by
canonical identifier (§6). -/
def CalendarEquals (a b : CalendarId) : Bool :=
  canonicalCalendarId a == canonicalCalendarId b

/-- The immutable year-month value: ISO anchor plus calendar
(`PlainYearMonthWithCalendar` in the source). -/
structure PlainYearMonth where
  date : PlainDate
  calendar : CalendarId
deriving DecidableEq, Repr

/-- Error kinds of the error taxonomy (§7); the `JSMSG_…` message kinds of
the source. -/
inductive ErrorKind where
  | invalidISODate
  | plainYearMonthInvalid
  | calendarIncompatible
  | invalidOption
  | missingField
  | dateOutOfRange
  | parseFailure
  | unexpectedType
deriving DecidableEq, Repr

/-- An error surfaced to the caller, tagged range/type as in the source's
`RangeError`/`TypeError` split. -/
inductive JSError where
  | rangeError (kind : ErrorKind)
  | typeError (kind : ErrorKind)
deriving DecidableEq, Repr

/-- Overflow handling mode (`TemporalOverflow` in the source). -/
inductive TemporalOverflow where
  | constrain
  | reject
deriving DecidableEq, Repr

/-- Date units of the date unit group (`TemporalUnit`, restricted to the
date group used by the year-month difference). -/
inductive TemporalUnit where
  | year
  | month
  | week
  | day
deriving DecidableEq, Repr

/-- Coarseness rank of a unit: larger rank means coarser unit. -/
def TemporalUnit.rank : TemporalUnit → Nat
  | .day => 0
  | .week => 1
  | .month => 2
  | .year => 3

/-- Rounding modes (`TemporalRoundingMode`; a representative subset). -/
inductive RoundingMode where
  | trunc
  | ceil
  | floor
  | expand
  | halfExpand
deriving DecidableEq, Repr

/-- The full duration record (§3 Duration): `{years, months, weeks, days}`
plus the six time components. -/
structure Duration where
  years : Int := 0
  months : Int := 0
  weeks : Int := 0
  days : Int := 0
  hours : Int := 0
  minutes : Int := 0
  seconds : Int := 0
  milliseconds : Int := 0
  microseconds : Int := 0
  nanoseconds : Int := 0
deriving DecidableEq, Repr

/-- `Duration.negate`: every field negated. -/
def Duration.negate (d : Duration) : Duration :=
  ⟨-d.years, -d.months, -d.weeks, -d.days, -d.hours, -d.minutes, -d.seconds,
   -d.milliseconds, -d.microseconds, -d.nanoseconds⟩

/-- A duration restricted to `{years, months, weeks, days}` (`DateDuration`
in the source). -/
structure DateDuration where
  years : Int := 0
  months : Int := 0
  weeks : Int := 0
  days : Int := 0
deriving DecidableEq, Repr

/-- Modelled from the spec: the sign of a duration — the sign of the first
nonzero component, scanning coarsest first (`DurationSign`, external
`Duration` collaborator). -/
def DurationSign (d : DateDuration) : Int :=
  if d.years < 0 then -1
  else if 0 < d.years then 1
  else if d.months < 0 then -1
  else if 0 < d.months then 1
  else if d.weeks < 0 then -1
  else if 0 < d.weeks then 1
  else if d.days < 0 then -1
  else if 0 < d.days then 1
  else 0

/-- An ordered record of calendar fields (§3 FieldRecord), restricted to the
closed vocabulary used by the year-month core.  Month codes are represented
by their numeric month. -/
structure TemporalFields where
  year : Option Int := none
  month : Option Int := none
  monthCode : Option Int := none
  day : Option Int := none
deriving DecidableEq, Repr

/-- Modelled from the spec: proleptic Gregorian leap-year test. -/
def isISOLeapYear (y : Int) : Bool :=
  (y % 4 == 0 && y % 100 != 0) || y % 400 == 0

/-- Modelled from the spec: number of days of month `m` of year `y` in the
proleptic Gregorian calendar. -/
def isoDaysInMonth (y m : Int) : Int :=
  if m == 1 || m == 3 || m == 5 || m == 7 || m == 8 || m == 10 || m == 12
    then 31
  else if m == 4 || m == 6 || m == 9 || m == 11 then 30
  else if isISOLeapYear y then 29
  else 28

/-- Modelled from the spec: `ThrowIfInvalidISODate` succeeds exactly on
valid proleptic Gregorian dates (§6). -/
def isValidISODate (y m d : Int) : Bool :=
  1 ≤ m && m ≤ 12 && 1 ≤ d && d ≤ isoDaysInMonth y m

/-- `ISOYearMonthWithinLimits ( year, month )`: the pair lies in the closed
range [(-271821, 4), (275760, 9)]. -/
def ISOYearMonthWithinLimits (year month : Int) : Bool :=
  -- Step 2.
  if year < -271821 || 275760 < year then false
  -- Step 3.
  else if year == -271821 && month < 4 then false
  -- Step 4.
  else if year == 275760 && 9 < month then false
  -- Step 5.
  else true

/-- `CreateTemporalYearMonth ( isoYear, isoMonth, calendar, referenceISODay )`:
validate the ISO triple, then the year-month limits, then build the value. -/
def CreateTemporalYearMonth (date : PlainDate) (calendar : CalendarId) :
    Except JSError PlainYearMonth :=
  -- Step 1.
  if ¬ isValidISODate date.year date.month date.day then
    .error (.rangeError .invalidISODate)
  -- Step 2.
  else if ¬ ISOYearMonthWithinLimits date.year date.month then
    .error (.rangeError .plainYearMonthInvalid)
  -- Steps 3-9.
  else
    .ok ⟨date, calendar⟩

/-- Clamp `x` to the closed interval `[lo, hi]`. -/
def clampInt (x lo hi : Int) : Int :=
  max lo (min x hi)

/-- Modelled from the spec: `BalanceISODate` rebalances an ISO triple whose
day may have stepped below 1; the core only ever subtracts a single day from
a valid date (§4.4 step 7), so a single month borrow suffices. -/
def BalanceISODate (y m d : Int) : PlainDate :=
  if 1 ≤ d then ⟨y, m, d⟩
  else if 1 < m then ⟨y, m - 1, isoDaysInMonth y (m - 1)⟩
  else ⟨y - 1, 12, 31⟩

/-- Modelled from the spec: lexicographic ternary comparison of two ISO
triples (`CompareISODate`, external `PlainDate` collaborator; §4.3). -/
def CompareISODate (a b : PlainDate) : Int :=
  if a.year < b.year then -1
  else if b.year < a.year then 1
  else if a.month < b.month then -1
  else if b.month < a.month then 1
  else if a.day < b.day then -1
  else if b.day < a.day then 1
  else 0

/-- Modelled from the spec: `PlainDate` construction validates the ISO
triple and the representable range (external collaborator; §1, §6). -/
def CreateTemporalDate (date : PlainDate) : Except JSError PlainDate :=
  if isValidISODate date.year date.month date.day
      && -271821 ≤ date.year && date.year ≤ 275760 then
    .ok date
  else
    .error (.rangeError .dateOutOfRange)

/-- Nanoseconds per day. -/
def nsPerDay : Int := 86400000000000

/-- Modelled from the spec: `NormalizeTimeDuration` followed by
`BalanceTimeDuration` with largest unit = day yields the whole number of
days contained in the time components, truncated toward zero (§4.4
step 2, §6). -/
def balancedTimeDays (d : Duration) : Int :=
  Int.tdiv
    (d.hours * 3600000000000 + d.minutes * 60000000000 +
      d.seconds * 1000000000 + d.milliseconds * 1000000 +
      d.microseconds * 1000 + d.nanoseconds)
    nsPerDay

/-- Resolved difference settings (`DifferenceSettings` in the source). -/
structure DifferenceSettings where
  smallestUnit : TemporalUnit
  largestUnit : TemporalUnit
  roundingMode : RoundingMode
  roundingIncrement : Int
deriving DecidableEq, Repr

/-- The table of operations a calendar exposes to the year-month core
(§6 external interfaces).  The arithmetic core is parameterised over this
table; a concrete instance is given below for witnesses. -/
structure CalendarOps where
  /-- `PrepareCalendarFields(calendar, item, {MonthCode, Year})`: extract the
  calendar's `{monthCode, year}` field record from an ISO date. -/
  fieldsOf : PlainDate → TemporalFields
  /-- `CalendarDateFromFields(calendar, fields, overflow)`. -/
  dateFromFields : TemporalFields → TemporalOverflow → Except JSError PlainDate
  /-- `CalendarYearMonthFromFields(calendar, fields, overflow)`. -/
  yearMonthFromFields :
    TemporalFields → TemporalOverflow → Except JSError PlainYearMonth
  /-- `CalendarDateAdd(calendar, date, duration, overflow)`. -/
  dateAdd :
    PlainDate → DateDuration → TemporalOverflow → Except JSError PlainDate
  /-- `CalendarDateUntil(calendar, one, two, largestUnit)`. -/
  dateUntil :
    PlainDate → PlainDate → TemporalUnit → Except JSError DateDuration
  /-- `CalendarDay(calendar, date)`. -/
  dayOfDate : PlainDate → Int
  /-- `RoundRelativeDuration(duration, destEpochNs, dateTime, calendar, …)`
  (§4.5 step 6), specialised to the date duration, the destination date, the
  origin date and the resolved settings; the external rounder dispatches on
  the calendar, so it lives in the per-calendar table. -/
  roundRelative :
    DateDuration → PlainDate → PlainDate → DifferenceSettings →
      Except JSError DateDuration

/-- The unresolved difference options as supplied by the caller; `none`
stands for an absent entry (`largestUnit: "auto"` is the absent entry). -/
structure DifferenceOptions where
  smallestUnit : Option TemporalUnit := none
  largestUnit : Option TemporalUnit := none
  roundingMode : Option RoundingMode := none
  roundingIncrement : Option Int := none
deriving DecidableEq, Repr

/-- Modelled from the spec: `GetDifferenceSettings` for the year-month
difference — unit group = date, fallback smallest unit = `month`, smallest
unit floor = `month`, largest unit ceiling = `year`, default rounding mode
`trunc`, default increment 1; invalid combinations (smallest unit coarser
than largest unit, units beyond floor/ceiling, non-positive increment) are
range errors (§4.5 step 1, §7). -/
def GetDifferenceSettings (opts : DifferenceOptions) :
    Except JSError DifferenceSettings :=
  let smallest := opts.smallestUnit.getD .month
  if smallest.rank < TemporalUnit.rank .month then
    .error (.rangeError .invalidOption)
  else
    let largest := opts.largestUnit.getD .year
    if largest.rank < TemporalUnit.rank .month then
      .error (.rangeError .invalidOption)
    else if largest.rank < smallest.rank then
      .error (.rangeError .invalidOption)
    else
      let increment := opts.roundingIncrement.getD 1
      if increment ≤ 0 then
        .error (.rangeError .invalidOption)
      else
        .ok ⟨smallest, largest, opts.roundingMode.getD .trunc, increment⟩

/-- A conversion input (`ToTemporalYearMonth`'s polymorphic item, §4.2):
another year-month, a field-bearing record with an optional calendar, or an
ISO year-month string.  The external string parser is out of scope, so a
string input is represented by its parse outcome — modelled from the spec:
`ParseTemporalYearMonthString(s)` yields `(PlainDate, calendarId?)` or a
range error (§6). -/
inductive YearMonthItem where
  | yearMonth (ym : PlainYearMonth)
  | fieldRecord (calendar : Option CalendarId) (fields : TemporalFields)
  | parsedString (outcome : Except JSError (PlainDate × Option CalendarId))

/-- `PrepareCalendarFields(calendar, item, {Month, MonthCode, Year})`:
restrict a field record to the `{month, monthCode, year}` key set. -/
def restrictToYearMonthFields (f : TemporalFields) : TemporalFields :=
  { year := f.year, month := f.month, monthCode := f.monthCode }

/-- `ToTemporalYearMonth ( item [ , overflow ] )`, over the table of builtin
calendar operation tables `ops`. -/
def ToTemporalYearMonth (ops : CalendarId → CalendarOps)
    (item : YearMonthItem) (overflow : TemporalOverflow) :
    Except JSError PlainYearMonth :=
  match item with
  -- Step 2.a: another year-month is returned as-is.
  | .yearMonth ym => .ok ym
  -- Steps 2.b-2.d: field record; calendar defaults to ISO 8601.
  | .fieldRecord calendarLike fields =>
      let calendar := calendarLike.getD .iso8601
      (ops calendar).yearMonthFromFields (restrictToYearMonthFields fields)
        overflow
  -- Steps 3-11: string.
  | .parsedString outcome => do
      -- Step 4.
      let (date, calendarString) ← outcome
      -- Steps 5-8.
      let calendar := calendarString.getD .iso8601
      -- Step 9.
      let obj ← CreateTemporalYearMonth date calendar
      -- Steps 10-11: re-run through the calendar with `constrain`.
      (ops calendar).yearMonthFromFields ((ops calendar).fieldsOf obj.date)
        .constrain

/-- The zero duration. -/
def Duration.zero : Duration := {}

/-- The difference operation selector. -/
inductive TemporalDifference where
  | until
  | since
deriving DecidableEq, Repr

/-- `DifferenceTemporalPlainYearMonth ( operation, yearMonth, other,
options )`, after the conversion of `other` (step 2): calendar check,
options resolution, equal-anchor fast path, day-1 anchoring, calendar
`dateUntil`, optional rounding, optional negation. -/
def DifferenceTemporalPlainYearMonth (ops : CalendarId → CalendarOps)
    (operation : TemporalDifference) (yearMonth other : PlainYearMonth)
    (options : Option DifferenceOptions) : Except JSError Duration :=
  -- Step 3.
  let cal := ops yearMonth.calendar
  -- Step 4.
  if ¬ CalendarEquals yearMonth.calendar other.calendar then
    .error (.rangeError .calendarIncompatible)
  else do
    -- Steps 5-6.
    let settings ←
      match options with
      | some opts => GetDifferenceSettings opts
      | none => pure ⟨.month, .year, .trunc, 1⟩
    -- Step 7: equal-anchor fast path.
    if yearMonth.date = other.date then
      pure Duration.zero
    else do
      -- Steps 8-9.
      let thisFields := { cal.fieldsOf yearMonth.date with day := some 1 }
      -- Step 10.
      let thisDate ← cal.dateFromFields thisFields .constrain
      -- Steps 11-12.
      let otherFields := { cal.fieldsOf other.date with day := some 1 }
      -- Step 13.
      let otherDate ← cal.dateFromFields otherFields .constrain
      -- Step 14.
      let untilResult ← cal.dateUntil thisDate otherDate settings.largestUnit
      -- Only years and months are kept; all other fields are set to zero.
      let dateDuration : DateDuration :=
        { years := untilResult.years, months := untilResult.months }
      -- Steps 15-16.
      let rounded ←
        if settings.smallestUnit ≠ TemporalUnit.month ∨
            settings.roundingIncrement ≠ 1 then
          cal.roundRelative dateDuration otherDate thisDate settings
        else
          pure dateDuration
      -- Step 17.
      let duration : Duration :=
        { years := rounded.years, months := rounded.months }
      pure (if operation = TemporalDifference.since
        then duration.negate else duration)

/-- The add/subtract operation selector (`PlainYearMonthDuration`). -/
inductive PlainYearMonthDuration where
  | add
  | subtract
deriving DecidableEq, Repr

/-- Steps 2 and 5-7 of the add/subtract algorithm: negate for `subtract`,
balance the time components into days, and form the combined date duration
`{years, months, weeks, days + balancedDays}`. -/
def combinedDateDuration (operation : PlainYearMonthDuration)
    (duration : Duration) : DateDuration :=
  let d := if operation = PlainYearMonthDuration.subtract
    then duration.negate else duration
  { years := d.years, months := d.months, weeks := d.weeks,
    days := d.days + balancedTimeDays d }

/-- Step 14 of the add/subtract algorithm: re-anchor to the last day of the
receiver's month — add one month via the calendar, subtract one ISO day and
rebalance, rebuild as a calendar date, read its day via the calendar, set it
in the copied fields and re-run `CalendarDateFromFields` with `constrain`. -/
def lastDayOfMonthAnchor (cal : CalendarOps) (fieldsCopy : TemporalFields)
    (intermediateDate : PlainDate) : Except JSError PlainDate := do
  -- Step 14.a.
  let oneMonthDuration : DateDuration := { months := 1 }
  -- Step 14.b.
  let nextMonth ← cal.dateAdd intermediateDate oneMonthDuration .constrain
  -- Step 14.c.
  let endOfMonthISO :=
    BalanceISODate nextMonth.year nextMonth.month (nextMonth.day - 1)
  -- Step 14.d.
  let endOfMonth ← CreateTemporalDate endOfMonthISO
  -- Step 14.e.
  let day := cal.dayOfDate endOfMonth
  -- Step 14.f.
  let fieldsCopy := { fieldsCopy with day := some day }
  -- Step 14.g.
  cal.dateFromFields fieldsCopy .constrain

/-- `AddDurationToOrSubtractDurationFromPlainYearMonth ( operation,
yearMonth, temporalDurationLike, options )`. -/
def AddDurationToOrSubtractDurationFromPlainYearMonth
    (ops : CalendarId → CalendarOps) (operation : PlainYearMonthDuration)
    (yearMonth : PlainYearMonth) (duration : Duration)
    (options : Option TemporalOverflow) : Except JSError PlainYearMonth := do
  -- Steps 3-4.
  let overflow := options.getD .constrain
  -- Steps 2 and 5-7.
  let durationToAdd := combinedDateDuration operation duration
  -- Step 8.
  let sign := DurationSign durationToAdd
  -- Step 9.
  let cal := ops yearMonth.calendar
  -- Step 10.
  let fields := cal.fieldsOf yearMonth.date
  -- Step 11.
  let fieldsCopy := fields
  -- Step 12.
  let fields := { fields with day := some 1 }
  -- Step 13.
  let intermediateDate ← cal.dateFromFields fields .constrain
  -- Steps 14-15.
  let date ←
    if sign < 0 then
      lastDayOfMonthAnchor cal fieldsCopy intermediateDate
    else
      pure intermediateDate
  -- Step 17.
  let addedDate ← cal.dateAdd date durationToAdd overflow
  -- Step 18.
  let addedDateFields := cal.fieldsOf addedDate
  -- Step 19.
  cal.yearMonthFromFields addedDateFields overflow

/-- `Temporal.PlainYearMonth.compare ( one, two )`: convert both inputs and
compare the ISO anchors. -/
def PlainYearMonth_compare (ops : CalendarId → CalendarOps)
    (one two : YearMonthItem) : Except JSError Int := do
  -- Step 1.
  let o ← ToTemporalYearMonth ops one .constrain
  -- Step 2.
  let t ← ToTemporalYearMonth ops two .constrain
  -- Step 3.
  return CompareISODate o.date t.date

/-- `Temporal.PlainYearMonth.prototype.equals ( other )`: ISO anchors
identical and calendars equal by identifier. -/
def PlainYearMonth_equals (ops : CalendarId → CalendarOps)
    (yearMonth : PlainYearMonth) (other : YearMonthItem) :
    Except JSError Bool := do
  -- Step 3.
  let o ← ToTemporalYearMonth ops other .constrain
  -- Steps 4-7.
  return decide (yearMonth.date = o.date) && CalendarEquals yearMonth.calendar o.calendar

/-- Modelled from the spec: resolve the `month`/`monthCode` pair of a field
record — `month` and `monthCode`, when both present, must agree (§4.2,
glossary "Calendar merge"). -/
def resolveMonthField (f : TemporalFields) : Option Int :=
  match f.month, f.monthCode with
  | some m, some mc => if m = mc then some m else none
  | some m, none => some m
  | none, some mc => some mc
  | none, none => none

/-- Modelled from the spec: `CalendarDateFromFields` for an ISO-semantics
calendar — requires `{year, month|monthCode, day}`; `constrain` clamps the
month and day, `reject` fails on any out-of-range field (§6, §7 overflow
policy). -/
def isoDateFromFields (f : TemporalFields) (overflow : TemporalOverflow) :
    Except JSError PlainDate :=
  match f.year, resolveMonthField f, f.day with
  | some y, some m, some d =>
      if y < -271821 ∨ 275760 < y then
        .error (.rangeError .dateOutOfRange)
      else
        match overflow with
        | .constrain =>
            let m' := clampInt m 1 12
            let d' := clampInt d 1 (isoDaysInMonth y m')
            .ok ⟨y, m', d'⟩
        | .reject =>
            if isValidISODate y m d then .ok ⟨y, m, d⟩
            else .error (.rangeError .invalidISODate)
  | _, _, _ => .error (.typeError .missingField)

/-- Modelled from the spec: `CalendarYearMonthFromFields` for an
ISO-semantics calendar with identifier `id` — requires
`{year, month|monthCode}`, normalizes per the overflow mode, picks reference
day 1 and enforces the year-month limits (§6). -/
def isoYearMonthFromFields (id : CalendarId) (f : TemporalFields)
    (overflow : TemporalOverflow) : Except JSError PlainYearMonth :=
  match f.year, resolveMonthField f with
  | some y, some m =>
      match overflow with
      | .constrain =>
          let m' := clampInt m 1 12
          if ISOYearMonthWithinLimits y m' then .ok ⟨⟨y, m', 1⟩, id⟩
          else .error (.rangeError .plainYearMonthInvalid)
      | .reject =>
          if 1 ≤ m ∧ m ≤ 12 ∧ ISOYearMonthWithinLimits y m = true then
            .ok ⟨⟨y, m, 1⟩, id⟩
          else .error (.rangeError .plainYearMonthInvalid)
  | _, _ => .error (.typeError .missingField)

/-- Days since 1970-01-01 of a proleptic Gregorian date (civil-from-days
inverse); standard integer-arithmetic formulation. -/
def epochDaysFromISODate (y m d : Int) : Int :=
  let y' := if m ≤ 2 then y - 1 else y
  let era := Int.fdiv y' 400
  let yoe := y' - era * 400
  let mp := Int.emod (m + 9) 12
  let doy := Int.fdiv (153 * mp + 2) 5 + d - 1
  let doe := yoe * 365 + Int.fdiv yoe 4 - Int.fdiv yoe 100 + doy
  era * 146097 + doe - 719468

/-- Proleptic Gregorian date of a count of days since 1970-01-01. -/
def isoDateFromEpochDays (z0 : Int) : PlainDate :=
  let z := z0 + 719468
  let era := Int.fdiv z 146097
  let doe := z - era * 146097
  let yoe :=
    Int.fdiv (doe - Int.fdiv doe 1460 + Int.fdiv doe 36524 -
      Int.fdiv doe 146096) 365
  let y := yoe + era * 400
  let doy := doe - (365 * yoe + Int.fdiv yoe 4 - Int.fdiv yoe 100)
  let mp := Int.fdiv (5 * doy + 2) 153
  let d := doy - Int.fdiv (153 * mp + 2) 5 + 1
  let m := mp + (if mp < 10 then 3 else -9)
  ⟨y + (if m ≤ 2 then 1 else 0), m, d⟩

/-- Modelled from the spec: `CalendarDateAdd` for an ISO-semantics
calendar — add years and months with month balancing, regulate the day per
the overflow mode, then add weeks and days through the epoch-day
representation (§6). -/
def isoDateAdd (date : PlainDate) (dur : DateDuration)
    (overflow : TemporalOverflow) : Except JSError PlainDate := do
  let months0 := date.year * 12 + (date.month - 1) + dur.years * 12 + dur.months
  let y := Int.fdiv months0 12
  let m := months0 - 12 * y + 1
  let dim := isoDaysInMonth y m
  let d ←
    match overflow with
    | .constrain => pure (clampInt date.day 1 dim)
    | .reject =>
        if 1 ≤ date.day ∧ date.day ≤ dim then pure date.day
        else throw (.rangeError .invalidISODate)
  let days := dur.weeks * 7 + dur.days
  if days = 0 then
    return ⟨y, m, d⟩
  else
    return isoDateFromEpochDays (epochDaysFromISODate y m d + days)

/-- Modelled from the spec: `CalendarDateUntil` for an ISO-semantics
calendar — the signed whole-month difference, adjusted so the day of the
target is not overshot, balanced into years when the largest unit is
`year`, or expressed in weeks/days for the finer largest units (§6). -/
def isoDateUntil (one two : PlainDate) (largestUnit : TemporalUnit) :
    Except JSError DateDuration :=
  let months0 := (two.year - one.year) * 12 + (two.month - one.month)
  let months :=
    if 0 < months0 ∧ two.day < one.day then months0 - 1
    else if months0 < 0 ∧ one.day < two.day then months0 + 1
    else months0
  match largestUnit with
  | .year => .ok { years := Int.tdiv months 12, months := Int.tmod months 12 }
  | .month => .ok { months := months }
  | .week =>
      let days := epochDaysFromISODate two.year two.month two.day -
        epochDaysFromISODate one.year one.month one.day
      .ok { weeks := Int.tdiv days 7, days := Int.tmod days 7 }
  | .day =>
      let days := epochDaysFromISODate two.year two.month two.day -
        epochDaysFromISODate one.year one.month one.day
      .ok { days := days }

/-- Round `x` to a multiple of the positive increment `inc` per the rounding
mode. -/
def roundIntToIncrement (x inc : Int) (mode : RoundingMode) : Int :=
  let q := Int.fdiv x inc
  let r := x - q * inc
  if r = 0 then x
  else
    match mode with
    | .trunc => if x < 0 then (q + 1) * inc else q * inc
    | .floor => q * inc
    | .ceil => (q + 1) * inc
    | .expand => if x < 0 then q * inc else (q + 1) * inc
    | .halfExpand =>
        if inc ≤ 2 * r then (q + 1) * inc else q * inc

/-- Modelled from the spec: `RoundRelativeDuration` restricted to a
years/months duration between two day-anchored dates — round the total
months at the smallest unit and re-balance into the largest unit (§4.5
step 6, §6). -/
def isoRoundRelative (dd : DateDuration) (_dest _origin : PlainDate)
    (s : DifferenceSettings) : Except JSError DateDuration :=
  let total := dd.years * 12 + dd.months
  match s.smallestUnit with
  | .year =>
      let r := roundIntToIncrement total (12 * s.roundingIncrement)
        s.roundingMode
      .ok { years := Int.tdiv r 12 }
  | .month =>
      let r := roundIntToIncrement total s.roundingIncrement s.roundingMode
      if s.largestUnit = TemporalUnit.year then
        .ok { years := Int.tdiv r 12, months := Int.tmod r 12 }
      else
        .ok { months := r }
  | _ => .ok dd

/-- Modelled from the spec: the operation table of a builtin calendar.  The
calendar implementations themselves are out-of-scope external collaborators
(§1), so every builtin calendar is modelled with ISO field semantics; only
the identifier, which is all the core's own logic inspects, distinguishes
them. -/
def mkBuiltinOps (id : CalendarId) : CalendarOps where
  fieldsOf d := { year := some d.year, monthCode := some d.month }
  dateFromFields := isoDateFromFields
  yearMonthFromFields := isoYearMonthFromFields id
  dateAdd := isoDateAdd
  dateUntil := isoDateUntil
  dayOfDate d := d.day
  roundRelative := isoRoundRelative

/-- The table of builtin calendars (`ToBuiltinCalendar`'s codomain). -/
def builtinCalendarOps : CalendarId → CalendarOps := mkBuiltinOps

/-! ## Shared lemmas -/

theorem CalendarEquals_self (c : CalendarId) : CalendarEquals c c = true := by
  cases c <;> rfl

theorem compareISODate_self (a : PlainDate) : CompareISODate a a = 0 := by
  unfold CompareISODate
  split_ifs <;> omega

theorem compareISODate_antisymm (a b : PlainDate) :
    CompareISODate a b = -CompareISODate b a := by
  rcases a with ⟨ay, am, ad⟩
  rcases b with ⟨by', bm, bd⟩
  unfold CompareISODate
  simp only
  split_ifs <;> omega

theorem compareISODate_mem (a b : PlainDate) :
    CompareISODate a b = -1 ∨ CompareISODate a b = 0 ∨
      CompareISODate a b = 1 := by
  unfold CompareISODate
  split_ifs <;> simp

set_option maxHeartbeats 1600000 in
theorem compareISODate_trans (a b c : PlainDate)
    (hab : CompareISODate a b = -1) (hbc : CompareISODate b c = -1) :
    CompareISODate a c = -1 := by
  rcases a with ⟨ay, am, ad⟩
  rcases b with ⟨by', bm, bd⟩
  rcases c with ⟨cy, cm, cd⟩
  unfold CompareISODate at hab hbc ⊢
  simp only at hab hbc ⊢
  split_ifs at hab hbc ⊢ <;> omega

theorem compareISODate_eq_zero_iff (a b : PlainDate) :
    CompareISODate a b = 0 ↔ a = b := by
  rcases a with ⟨ay, am, ad⟩
  rcases b with ⟨by', bm, bd⟩
  unfold CompareISODate
  simp only [PlainDate.mk.injEq]
  split_ifs <;> first
    | omega
    | (constructor <;> intro h <;> first | exact h.elim | omega)

@[simp]
theorem exceptOkBind {α β : Type} (a : α) (f : α → Except JSError β) :
    (Except.ok a >>= f : Except JSError β) = f a := rfl

@[simp]
theorem exceptErrorBind {α β : Type} (e : JSError)
    (f : α → Except JSError β) :
    (Except.error e >>= f : Except JSError β) = Except.error e := rfl

theorem exceptBindOk {α β : Type} {x : Except JSError α}
    {f : α → Except JSError β} {b : β} (h : (x >>= f) = .ok b) :
    ∃ a, x = .ok a ∧ f a = .ok b := by
  cases x with
  | ok a => exact ⟨a, rfl, by simpa using h⟩
  | error e => simp at h

theorem bindNeErr {α β : Type} {k : JSError} {x : Except JSError α}
    {f : α → Except JSError β} (hx : x ≠ .error k)
    (hf : ∀ a, f a ≠ .error k) : (x >>= f) ≠ .error k := by
  cases x with
  | ok a => simpa using hf a
  | error e => simpa using hx

theorem Duration.negate_negate (d : Duration) : d.negate.negate = d := by
  cases d
  simp [Duration.negate]

theorem exceptMapBindComm {α β γ : Type} (g : β → γ)
    (x : Except JSError α) (f : α → Except JSError β) :
    Except.map g (x >>= f) = x >>= fun a => Except.map g (f a) := by
  cases x <;> rfl

theorem exceptBindCongr {α β : Type} {x : Except JSError α}
    {f g : α → Except JSError β} (h : ∀ a, f a = g a) :
    (x >>= f) = (x >>= g) := by
  cases x <;> simp [h]

/-! ## Claims -/

/-- C4: construction of a year-month succeeds exactly when the ISO triple is
a valid proleptic Gregorian date and `(isoYear, isoMonth)` lies in the
closed range [(-271821, 4), (275760, 9)]; a valid date whose year-month
pair lies outside that range fails with a `RangeError` of kind
plain-year-month-invalid; and every constructed year-month satisfies both
invariants. -/
theorem createTemporalYearMonth_spec (y m d : Int) (c : CalendarId) :
    ((∃ ym, CreateTemporalYearMonth ⟨y, m, d⟩ c = .ok ym) ↔
      (isValidISODate y m d = true ∧ ISOYearMonthWithinLimits y m = true)) ∧
    (isValidISODate y m d = true → ISOYearMonthWithinLimits y m = false →
      CreateTemporalYearMonth ⟨y, m, d⟩ c =
        .error (.rangeError .plainYearMonthInvalid)) ∧
    (∀ ym, CreateTemporalYearMonth ⟨y, m, d⟩ c = .ok ym →
      ym.date = ⟨y, m, d⟩ ∧
      isValidISODate ym.date.year ym.date.month ym.date.day = true ∧
      ISOYearMonthWithinLimits ym.date.year ym.date.month = true) := by
  unfold CreateTemporalYearMonth
  refine ⟨⟨?_, ?_⟩, ?_, ?_⟩
  · rintro ⟨ym, h⟩
    split_ifs at h <;> simp_all
  · rintro ⟨h1, h2⟩
    exact ⟨⟨⟨y, m, d⟩, c⟩, by simp [h1, h2]⟩
  · intro h1 h2
    simp [h1, h2]
  · intro ym h
    split_ifs at h with h1 h2 <;> simp_all
    obtain ⟨rfl, -⟩ := h
    simp_all

/-- C4 witness: the spec's concrete scenario — `(275760, 10, 1)` is a valid
ISO date whose year-month pair exceeds the upper limit, so construction
fails with kind plain-year-month-invalid. -/
theorem createTemporalYearMonth_spec_witness :
    isValidISODate 275760 10 1 = true ∧
    ISOYearMonthWithinLimits 275760 10 = false ∧
    CreateTemporalYearMonth ⟨275760, 10, 1⟩ CalendarId.iso8601 =
      .error (.rangeError .plainYearMonthInvalid) :=
  ⟨by decide, by decide,
    (createTemporalYearMonth_spec 275760 10 1 CalendarId.iso8601).2.1
      (by decide) (by decide)⟩

/-- C8: `compare(a, b)` is the ternary -1/0/+1 lexicographic comparison of
the ISO triples of the converted year-months, ignoring their calendars; it
is antisymmetric, transitive, and `compare(a, a) = 0`. -/
theorem plainYearMonth_compare_spec (ops : CalendarId → CalendarOps)
    (a b c : PlainYearMonth) :
    (PlainYearMonth_compare ops (.yearMonth a) (.yearMonth b) =
      .ok (CompareISODate a.date b.date)) ∧
    (CompareISODate a.date b.date = -1 ∨ CompareISODate a.date b.date = 0 ∨
      CompareISODate a.date b.date = 1) ∧
    (CompareISODate a.date b.date = -(CompareISODate b.date a.date)) ∧
    (CompareISODate a.date a.date = 0) ∧
    (CompareISODate a.date b.date = -1 → CompareISODate b.date c.date = -1 →
      CompareISODate a.date c.date = -1) :=
  ⟨rfl, compareISODate_mem _ _, compareISODate_antisymm _ _,
    compareISODate_self _, compareISODate_trans _ _ _⟩

/-- C8 witness: the claim's conjuncts applied to 2019-12, 2020-01 and
2021-03 with distinct calendars — the result is the ternary comparison of
the ISO anchors alone, and the strict order composes transitively. -/
theorem plainYearMonth_compare_spec_witness :
    (PlainYearMonth_compare builtinCalendarOps
      (.yearMonth ⟨⟨2019, 12, 1⟩, CalendarId.iso8601⟩)
      (.yearMonth ⟨⟨2020, 1, 1⟩, CalendarId.hebrew⟩) = .ok (-1)) ∧
    CompareISODate ⟨2019, 12, 1⟩ ⟨2021, 3, 1⟩ = -1 :=
  ⟨(plainYearMonth_compare_spec builtinCalendarOps
      ⟨⟨2019, 12, 1⟩, CalendarId.iso8601⟩ ⟨⟨2020, 1, 1⟩, CalendarId.hebrew⟩
      ⟨⟨2021, 3, 1⟩, CalendarId.iso8601⟩).1,
    (plainYearMonth_compare_spec builtinCalendarOps
      ⟨⟨2019, 12, 1⟩, CalendarId.iso8601⟩ ⟨⟨2020, 1, 1⟩, CalendarId.hebrew⟩
      ⟨⟨2021, 3, 1⟩, CalendarId.iso8601⟩).2.2.2.2 (by decide) (by decide)⟩

/-- C9: `equals` is true exactly when the ISO triples are identical and the
calendars are equal by canonical identifier; equality implies
`compare == 0`, and the converse fails for equal anchors with different
calendars. -/
theorem plainYearMonth_equals_spec (ops : CalendarId → CalendarOps)
    (a b : PlainYearMonth) :
    (PlainYearMonth_equals ops a (.yearMonth b) = .ok true ↔
      (a.date = b.date ∧ CalendarEquals a.calendar b.calendar = true)) ∧
    (PlainYearMonth_equals ops a (.yearMonth b) = .ok true →
      CompareISODate a.date b.date = 0) ∧
    (∃ u v : PlainYearMonth,
      CompareISODate u.date v.date = 0 ∧
      PlainYearMonth_equals ops u (.yearMonth v) = .ok false) := by
  have hbase : PlainYearMonth_equals ops a (.yearMonth b) =
      .ok (decide (a.date = b.date) &&
        CalendarEquals a.calendar b.calendar) := rfl
  have hiff : PlainYearMonth_equals ops a (.yearMonth b) = .ok true ↔
      (a.date = b.date ∧ CalendarEquals a.calendar b.calendar = true) := by
    rw [hbase]
    constructor
    · intro h
      have h' := Except.ok.inj h
      simpa using h'
    · rintro ⟨h1, h2⟩
      simp [h1, h2]
  refine ⟨hiff, ?_, ?_⟩
  · intro h
    exact (compareISODate_eq_zero_iff _ _).mpr (hiff.mp h).1
  · refine ⟨⟨⟨2024, 6, 1⟩, .iso8601⟩, ⟨⟨2024, 6, 1⟩, .hebrew⟩, ?_, rfl⟩
    exact compareISODate_self _

/-- C9 witness: `equals` on identical ISO anchor and calendar is true, and
the comparison of the anchors is 0. -/
theorem plainYearMonth_equals_spec_witness :
    PlainYearMonth_equals builtinCalendarOps
      ⟨⟨2020, 2, 1⟩, CalendarId.gregory⟩
      (.yearMonth ⟨⟨2020, 2, 1⟩, CalendarId.gregory⟩) = .ok true ∧
    CompareISODate ⟨2020, 2, 1⟩ ⟨2020, 2, 1⟩ = 0 := by
  have h := (plainYearMonth_equals_spec builtinCalendarOps
    ⟨⟨2020, 2, 1⟩, CalendarId.gregory⟩ ⟨⟨2020, 2, 1⟩, CalendarId.gregory⟩)
  have heq : PlainYearMonth_equals builtinCalendarOps
      ⟨⟨2020, 2, 1⟩, CalendarId.gregory⟩
      (.yearMonth ⟨⟨2020, 2, 1⟩, CalendarId.gregory⟩) = .ok true :=
    h.1.mpr ⟨rfl, by decide⟩
  exact ⟨heq, h.2.1 heq⟩

/-- C5: converting a successfully parsed string selects the calendar from
the annotation, defaulting to ISO 8601 when absent, validates the parsed
ISO date as a year-month, and re-runs `CalendarYearMonthFromFields` on the
calendar's fields of the parsed anchor with overflow `constrain` — whatever
overflow mode the caller supplied. -/
theorem toTemporalYearMonth_string_spec (ops : CalendarId → CalendarOps)
    (date : PlainDate) (calendarString : Option CalendarId)
    (overflow overflow' : TemporalOverflow) :
    (ToTemporalYearMonth ops (.parsedString (.ok (date, calendarString)))
        overflow =
      (do
        let calendar := calendarString.getD .iso8601
        let obj ← CreateTemporalYearMonth date calendar
        (ops calendar).yearMonthFromFields ((ops calendar).fieldsOf obj.date)
          TemporalOverflow.constrain)) ∧
    (ToTemporalYearMonth ops (.parsedString (.ok (date, calendarString)))
        overflow =
      ToTemporalYearMonth ops (.parsedString (.ok (date, calendarString)))
        overflow') :=
  ⟨rfl, rfl⟩

/-- C2 counterexample: the claim promises a zero duration for `Y.until(Y)`
"regardless of the options supplied", but with an options object whose
smallest unit is coarser than its largest unit, the difference of a
year-month with itself is a range error, not a zero duration. -/
theorem until_self_invalid_options_not_zero :
    DifferenceTemporalPlainYearMonth builtinCalendarOps .until
        ⟨⟨2020, 1, 1⟩, CalendarId.iso8601⟩ ⟨⟨2020, 1, 1⟩, CalendarId.iso8601⟩
        (some { smallestUnit := some .year, largestUnit := some .month }) =
      .error (.rangeError .invalidOption) ∧
    DifferenceTemporalPlainYearMonth builtinCalendarOps .until
        ⟨⟨2020, 1, 1⟩, CalendarId.iso8601⟩ ⟨⟨2020, 1, 1⟩, CalendarId.iso8601⟩
        (some { smallestUnit := some .year, largestUnit := some .month }) ≠
      .ok Duration.zero := by
  have h1 : DifferenceTemporalPlainYearMonth builtinCalendarOps .until
      ⟨⟨2020, 1, 1⟩, CalendarId.iso8601⟩ ⟨⟨2020, 1, 1⟩, CalendarId.iso8601⟩
      (some { smallestUnit := some .year, largestUnit := some .month }) =
      .error (.rangeError .invalidOption) := rfl
  exact ⟨h1, fun h => Except.noConfusion (h1.symm.trans h)⟩

/-- C2 (amended): for every options value that resolves to valid difference
settings — and with no options at all — `Y.until(Y)` returns the zero
duration through the equal-anchor fast path, without calendar
arithmetic. -/
theorem until_self_zero (ops : CalendarId → CalendarOps)
    (ym : PlainYearMonth) :
    (DifferenceTemporalPlainYearMonth ops .until ym ym none =
      .ok Duration.zero) ∧
    (∀ opts s, GetDifferenceSettings opts = .ok s →
      DifferenceTemporalPlainYearMonth ops .until ym ym (some opts) =
        .ok Duration.zero) := by
  have hce : CalendarEquals ym.calendar ym.calendar = true :=
    CalendarEquals_self _
  constructor
  · simp only [DifferenceTemporalPlainYearMonth, hce]
    simp
    rfl
  · intro opts s h
    simp [DifferenceTemporalPlainYearMonth, hce, h]

/-- C2 witness: the fast path at a concrete year-month and concrete valid
options. -/
theorem until_self_zero_witness :
    GetDifferenceSettings {} = .ok ⟨.month, .year, .trunc, 1⟩ ∧
    DifferenceTemporalPlainYearMonth builtinCalendarOps .until
        ⟨⟨1582, 10, 1⟩, CalendarId.gregory⟩ ⟨⟨1582, 10, 1⟩, CalendarId.gregory⟩
        (some {}) = .ok Duration.zero :=
  ⟨rfl,
    (until_self_zero builtinCalendarOps ⟨⟨1582, 10, 1⟩, .gregory⟩).2 {}
      ⟨.month, .year, .trunc, 1⟩ rfl⟩

/-- Every failure of the options resolution is a range error. -/
theorem getDifferenceSettings_error_isRange (opts : DifferenceOptions)
    (e : JSError) (h : GetDifferenceSettings opts = .error e) :
    ∃ k, e = .rangeError k := by
  unfold GetDifferenceSettings at h
  dsimp only at h
  split_ifs at h <;>
    first
      | exact ⟨ErrorKind.invalidOption, (Except.error.inj h).symm⟩
      | simp at h

/-- C6: in the difference operation the options object is resolved and
validated before the equal-anchor fast path, so `Y.until(Y, options)` with
an options object whose setting combination is invalid propagates the
options error — a range error — instead of returning a zero duration. -/
theorem until_self_invalid_options_throws (ops : CalendarId → CalendarOps)
    (ym : PlainYearMonth) (opts : DifferenceOptions) (e : JSError)
    (h : GetDifferenceSettings opts = .error e) :
    DifferenceTemporalPlainYearMonth ops .until ym ym (some opts) =
      .error e ∧ ∃ k, e = .rangeError k := by
  have hce : CalendarEquals ym.calendar ym.calendar = true :=
    CalendarEquals_self _
  constructor
  · simp [DifferenceTemporalPlainYearMonth, hce, h]
  · exact getDifferenceSettings_error_isRange opts e h

/-- C6 witness: a zero rounding increment is an invalid setting; with it,
`until` of a year-month with itself errors instead of producing zero. -/
theorem until_self_invalid_options_throws_witness :
    GetDifferenceSettings { roundingIncrement := some 0 } =
      .error (.rangeError .invalidOption) ∧
    DifferenceTemporalPlainYearMonth builtinCalendarOps .until
        ⟨⟨2021, 3, 1⟩, CalendarId.iso8601⟩ ⟨⟨2021, 3, 1⟩, CalendarId.iso8601⟩
        (some { roundingIncrement := some 0 }) =
      .error (.rangeError .invalidOption) :=
  ⟨rfl,
    (until_self_invalid_options_throws builtinCalendarOps
      ⟨⟨2021, 3, 1⟩, .iso8601⟩ { roundingIncrement := some 0 }
      (.rangeError .invalidOption) rfl).1⟩

/-- C3 counterexample: with the claimed argument order —
`Y1.until(Y2) == Y2.since(Y1).negate()` — the identity fails already for
the ISO year-months 2020-01 and 2020-02 with default options: both sides of
the claimed equation would have to agree, but `until` yields +1 month while
the negation of `since(Y1)` on receiver `Y2` yields -1 month. -/
theorem until_ne_neg_swapped_since :
    DifferenceTemporalPlainYearMonth builtinCalendarOps .until
        ⟨⟨2020, 1, 1⟩, CalendarId.iso8601⟩ ⟨⟨2020, 2, 1⟩, CalendarId.iso8601⟩
        none ≠
      Except.map Duration.negate
        (DifferenceTemporalPlainYearMonth builtinCalendarOps .since
          ⟨⟨2020, 2, 1⟩, CalendarId.iso8601⟩
          ⟨⟨2020, 1, 1⟩, CalendarId.iso8601⟩ none) := by
  intro h
  have h1 : DifferenceTemporalPlainYearMonth builtinCalendarOps .until
      ⟨⟨2020, 1, 1⟩, CalendarId.iso8601⟩ ⟨⟨2020, 2, 1⟩, CalendarId.iso8601⟩
      none = .ok { months := 1 } := rfl
  have h2 : Except.map Duration.negate
      (DifferenceTemporalPlainYearMonth builtinCalendarOps .since
        ⟨⟨2020, 2, 1⟩, CalendarId.iso8601⟩ ⟨⟨2020, 1, 1⟩, CalendarId.iso8601⟩
        none) = .ok { months := -1 } := rfl
  have h3 := Except.ok.inj (h1.symm.trans (h.trans h2))
  exact absurd h3 (by decide)

/-- C3 (amended): with matching argument order the negation identity is
exact — for every calendar table, receiver, other and options value,
`Y1.until(Y2, opts)` equals the negation of `Y1.since(Y2, opts)`: the since
operation runs the identical difference computation and negates every
duration field at the end. -/
theorem until_eq_neg_since (ops : CalendarId → CalendarOps)
    (ym other : PlainYearMonth) (options : Option DifferenceOptions) :
    DifferenceTemporalPlainYearMonth ops .until ym other options =
      Except.map Duration.negate
        (DifferenceTemporalPlainYearMonth ops .since ym other options) := by
  unfold DifferenceTemporalPlainYearMonth
  by_cases hce : CalendarEquals ym.calendar other.calendar = true
  · simp only [hce, not_true, Bool.true_eq_false, if_false, ite_false]
    rcases options with _ | opts
    · rw [pure_bind, pure_bind]
      by_cases hfast : ym.date = other.date
      · simp only [hfast, if_true, ite_true]
        rfl
      · simp only [hfast, if_false, ite_false]
        rw [exceptMapBindComm]; apply exceptBindCongr; intro thisDate
        rw [exceptMapBindComm]; apply exceptBindCongr; intro otherDate
        rw [exceptMapBindComm]; apply exceptBindCongr; intro untilResult
        rw [apply_ite (Except.map Duration.negate)]
        split_ifs <;>
          first
            | (rw [exceptMapBindComm]; apply exceptBindCongr; intro rounded
               simp_all [Except.map, pure, Except.pure, Duration.negate_negate])
            | simp_all [Except.map, pure, Except.pure, Duration.negate_negate]
    · rw [exceptMapBindComm]; apply exceptBindCongr; intro s
      by_cases hfast : ym.date = other.date
      · simp only [hfast, if_true, ite_true]
        rfl
      · simp only [hfast, if_false, ite_false]
        rw [exceptMapBindComm]; apply exceptBindCongr; intro thisDate
        rw [exceptMapBindComm]; apply exceptBindCongr; intro otherDate
        rw [exceptMapBindComm]; apply exceptBindCongr; intro untilResult
        rw [apply_ite (Except.map Duration.negate)]
        split_ifs <;>
          first
            | (rw [exceptMapBindComm]; apply exceptBindCongr; intro rounded
               simp_all [Except.map, pure, Except.pure, Duration.negate_negate])
            | simp_all [Except.map, pure, Except.pure, Duration.negate_negate]
  · simp only [hce, if_true, ite_true, if_false, ite_false, not_false_iff]
    rfl


/-- Options resolution never reports calendar incompatibility. -/
theorem getDifferenceSettings_ne_calIncompat (opts : DifferenceOptions) :
    GetDifferenceSettings opts ≠
      .error (.rangeError .calendarIncompatible) := by
  unfold GetDifferenceSettings
  dsimp only
  split_ifs <;> simp

/-- The modelled `CalendarDateFromFields` never reports calendar
incompatibility. -/
theorem isoDateFromFields_ne_calIncompat (f : TemporalFields)
    (ov : TemporalOverflow) :
    isoDateFromFields f ov ≠
      .error (.rangeError .calendarIncompatible) := by
  unfold isoDateFromFields
  rcases f.year with _ | y <;> rcases resolveMonthField f with _ | m <;>
    rcases f.day with _ | d <;> cases ov <;> (try simp) <;>
    split_ifs <;> simp

/-- The modelled `CalendarDateUntil` never fails. -/
theorem isoDateUntil_ne_error (one two : PlainDate) (u : TemporalUnit)
    (e : JSError) : isoDateUntil one two u ≠ .error e := by
  unfold isoDateUntil
  cases u <;> simp

/-- The modelled duration rounder never fails. -/
theorem isoRoundRelative_ne_error (dd : DateDuration) (a b : PlainDate)
    (st : DifferenceSettings) (e : JSError) :
    isoRoundRelative dd a b st ≠ .error e := by
  unfold isoRoundRelative
  rcases st with ⟨su, lu, mode, inc⟩
  cases su <;> dsimp only <;> (try split_ifs) <;> simp


/-- C7: the difference operation fails with a `RangeError` of kind
calendar-incompatible exactly when the calendars of the receiver and the
converted other year-month are not identifier-equal: unequal calendars
always produce that error (for every calendar operation table), and over
the builtin calendar tables no other condition produces it. -/
theorem difference_calendar_incompatible_iff (ops : CalendarId → CalendarOps)
    (op : TemporalDifference) (ym other : PlainYearMonth)
    (options : Option DifferenceOptions) :
    (CalendarEquals ym.calendar other.calendar = false →
      DifferenceTemporalPlainYearMonth ops op ym other options =
        .error (.rangeError .calendarIncompatible)) ∧
    (DifferenceTemporalPlainYearMonth builtinCalendarOps op ym other
        options = .error (.rangeError .calendarIncompatible) →
      CalendarEquals ym.calendar other.calendar = false) := by
  constructor
  · intro h
    unfold DifferenceTemporalPlainYearMonth
    simp [h]
  · intro h
    by_contra hne
    have hce : CalendarEquals ym.calendar other.calendar = true :=
      (Bool.eq_false_or_eq_true _).resolve_right hne
    apply absurd h
    unfold DifferenceTemporalPlainYearMonth
    simp only [hce, not_true, Bool.true_eq_false, if_false, ite_false]
    have tail : ∀ s : DifferenceSettings,
        ¬ ((if ym.date = other.date then pure Duration.zero
            else do
              let thisDate ← (builtinCalendarOps ym.calendar).dateFromFields
                { (builtinCalendarOps ym.calendar).fieldsOf ym.date with
                  day := some 1 } .constrain
              let otherDate ← (builtinCalendarOps ym.calendar).dateFromFields
                { (builtinCalendarOps ym.calendar).fieldsOf other.date with
                  day := some 1 } .constrain
              let untilResult ← (builtinCalendarOps ym.calendar).dateUntil
                thisDate otherDate s.largestUnit
              let rounded ←
                if s.smallestUnit ≠ TemporalUnit.month ∨
                    s.roundingIncrement ≠ 1 then
                  (builtinCalendarOps ym.calendar).roundRelative
                    { years := untilResult.years,
                      months := untilResult.months } otherDate thisDate s
                else
                  pure ({ years := untilResult.years,
                          months := untilResult.months } : DateDuration)
              pure (if op = TemporalDifference.since
                then ({ years := rounded.years,
                        months := rounded.months } : Duration).negate
                else { years := rounded.years, months := rounded.months })
            : Except JSError Duration) =
          .error (.rangeError .calendarIncompatible)) := by
      intro s
      by_cases hfast : ym.date = other.date
      · simp [hfast, pure, Except.pure]
      · simp only [hfast, if_false, ite_false]
        simp only [builtinCalendarOps, mkBuiltinOps]
        apply bindNeErr (isoDateFromFields_ne_calIncompat _ _)
        intro thisDate
        apply bindNeErr (isoDateFromFields_ne_calIncompat _ _)
        intro otherDate
        apply bindNeErr (isoDateUntil_ne_error _ _ _ _)
        intro untilResult
        split_ifs <;>
          first
            | (apply bindNeErr (isoRoundRelative_ne_error _ _ _ _ _)
               intro y
               simp [pure, Except.pure])
            | (refine bindNeErr (by simp [pure, Except.pure]) fun y => by
                simp [pure, Except.pure])
    rcases options with _ | opts
    · rw [pure_bind]
      exact tail _
    · apply bindNeErr (getDifferenceSettings_ne_calIncompat opts)
      intro s
      exact tail s


/-- C7 witness: receiver on the ISO 8601 calendar, other on the Gregorian
calendar — the difference fails with kind calendar-incompatible. -/
theorem difference_calendar_incompatible_iff_witness :
    CalendarEquals CalendarId.iso8601 CalendarId.gregory = false ∧
    DifferenceTemporalPlainYearMonth builtinCalendarOps .until
        ⟨⟨2020, 1, 1⟩, CalendarId.iso8601⟩ ⟨⟨2020, 1, 1⟩, CalendarId.gregory⟩
        none =
      .error (.rangeError .calendarIncompatible) :=
  ⟨rfl,
    (difference_calendar_incompatible_iff builtinCalendarOps .until
      ⟨⟨2020, 1, 1⟩, CalendarId.iso8601⟩ ⟨⟨2020, 1, 1⟩, CalendarId.gregory⟩
      none).1 rfl⟩

/-- Only the years and months components of a duration may be nonzero. -/
def Duration.yearsMonthsOnly (d : Duration) : Prop :=
  d.weeks = 0 ∧ d.days = 0 ∧ d.hours = 0 ∧ d.minutes = 0 ∧ d.seconds = 0 ∧
    d.milliseconds = 0 ∧ d.microseconds = 0 ∧ d.nanoseconds = 0

/-- C10: every Duration returned by the difference operation (`until` or
`since`) has zero weeks, days and time components, for every calendar
table, pair of year-months and options value: of the date duration
produced by the calendar only years and months are kept. -/
theorem difference_years_months_only (ops : CalendarId → CalendarOps)
    (op : TemporalDifference) (ym other : PlainYearMonth)
    (options : Option DifferenceOptions) (dur : Duration)
    (h : DifferenceTemporalPlainYearMonth ops op ym other options = .ok dur) :
    dur.yearsMonthsOnly := by
  unfold DifferenceTemporalPlainYearMonth at h
  by_cases hce : CalendarEquals ym.calendar other.calendar = true
  · simp only [hce, not_true, Bool.true_eq_false, if_false, ite_false] at h
    have tail : ∀ s : DifferenceSettings,
        (if ym.date = other.date then pure Duration.zero
          else do
            let thisDate ← (ops ym.calendar).dateFromFields
              { (ops ym.calendar).fieldsOf ym.date with day := some 1 }
              .constrain
            let otherDate ← (ops ym.calendar).dateFromFields
              { (ops ym.calendar).fieldsOf other.date with day := some 1 }
              .constrain
            let untilResult ← (ops ym.calendar).dateUntil
              thisDate otherDate s.largestUnit
            let rounded ←
              if s.smallestUnit ≠ TemporalUnit.month ∨
                  s.roundingIncrement ≠ 1 then
                (ops ym.calendar).roundRelative
                  { years := untilResult.years,
                    months := untilResult.months } otherDate thisDate s
              else
                pure ({ years := untilResult.years,
                        months := untilResult.months } : DateDuration)
            pure (if op = TemporalDifference.since
              then ({ years := rounded.years,
                      months := rounded.months } : Duration).negate
              else { years := rounded.years, months := rounded.months })
          : Except JSError Duration) = .ok dur →
        dur.yearsMonthsOnly := by
      intro s hs
      by_cases hfast : ym.date = other.date
      · simp only [hfast, if_true, ite_true, pure, Except.pure,
          Except.ok.injEq] at hs
        subst hs
        exact ⟨rfl, rfl, rfl, rfl, rfl, rfl, rfl, rfl⟩
      · simp only [hfast, if_false, ite_false] at hs
        obtain ⟨thisDate, -, hs⟩ := exceptBindOk hs
        obtain ⟨otherDate, -, hs⟩ := exceptBindOk hs
        obtain ⟨untilResult, -, hs⟩ := exceptBindOk hs
        split_ifs at hs <;>
          obtain ⟨rounded, -, hs⟩ := exceptBindOk hs <;>
          simp only [pure, Except.pure, Except.ok.injEq] at hs <;>
          subst hs <;>
          cases op <;>
          simp [Duration.negate, Duration.yearsMonthsOnly]
    rcases options with _ | opts
    · rw [pure_bind] at h
      exact tail _ h
    · obtain ⟨s, -, h⟩ := exceptBindOk h
      exact tail s h
  · simp only [hce, not_false_iff, if_true, ite_true] at h
    exact absurd h (by simp)

/-- C10 witness: a concrete difference across a year boundary — the result
is one year two months with every other component zero. -/
theorem difference_years_months_only_witness :
    DifferenceTemporalPlainYearMonth builtinCalendarOps .until
        ⟨⟨2020, 1, 1⟩, CalendarId.iso8601⟩ ⟨⟨2021, 3, 1⟩, CalendarId.iso8601⟩
        none = .ok { years := 1, months := 2 } ∧
    Duration.yearsMonthsOnly { years := 1, months := 2 } :=
  ⟨rfl,
    difference_years_months_only builtinCalendarOps .until
      ⟨⟨2020, 1, 1⟩, CalendarId.iso8601⟩ ⟨⟨2021, 3, 1⟩, CalendarId.iso8601⟩
      none { years := 1, months := 2 } rfl⟩


/-- C1: in add/subtract, after negation (for subtract) and balancing of the
time fields, the sign of the combined date duration decides the anchor: a
negative sign re-derives the anchor as the last day of the receiver's month
— one calendar month added to the day-1 intermediate date, one ISO day
subtracted with rebalancing, the triple rebuilt as a calendar date, its day
read via the calendar and set in the copied fields, and
`CalendarDateFromFields` re-run with `constrain` — while a zero or positive
sign keeps the day-1 intermediate date unchanged. -/
theorem addOrSubtract_anchor_spec (ops : CalendarId → CalendarOps)
    (op : PlainYearMonthDuration) (ym : PlainYearMonth) (dur : Duration)
    (options : Option TemporalOverflow) :
    (DurationSign (combinedDateDuration op dur) < 0 →
      AddDurationToOrSubtractDurationFromPlainYearMonth ops op ym dur
          options =
        (do
          let intermediateDate ← (ops ym.calendar).dateFromFields
            { (ops ym.calendar).fieldsOf ym.date with day := some 1 }
            .constrain
          let date ← lastDayOfMonthAnchor (ops ym.calendar)
            ((ops ym.calendar).fieldsOf ym.date) intermediateDate
          let addedDate ← (ops ym.calendar).dateAdd date
            (combinedDateDuration op dur) (options.getD .constrain)
          (ops ym.calendar).yearMonthFromFields
            ((ops ym.calendar).fieldsOf addedDate)
            (options.getD .constrain))) ∧
    (0 ≤ DurationSign (combinedDateDuration op dur) →
      AddDurationToOrSubtractDurationFromPlainYearMonth ops op ym dur
          options =
        (do
          let intermediateDate ← (ops ym.calendar).dateFromFields
            { (ops ym.calendar).fieldsOf ym.date with day := some 1 }
            .constrain
          let addedDate ← (ops ym.calendar).dateAdd intermediateDate
            (combinedDateDuration op dur) (options.getD .constrain)
          (ops ym.calendar).yearMonthFromFields
            ((ops ym.calendar).fieldsOf addedDate)
            (options.getD .constrain))) := by
  constructor
  · intro h
    unfold AddDurationToOrSubtractDurationFromPlainYearMonth
    simp only [h, if_true, ite_true]
  · intro h
    have h' : ¬ DurationSign (combinedDateDuration op dur) < 0 :=
      not_lt.mpr h
    unfold AddDurationToOrSubtractDurationFromPlainYearMonth
    simp only [h', if_false, ite_false, pure_bind]

/-- C1 witness: subtracting one month from 2020-01 has a negative combined
duration, so the anchor is re-derived through the last-day path. -/
theorem addOrSubtract_anchor_spec_witness :
    DurationSign
        (combinedDateDuration PlainYearMonthDuration.subtract
          { months := 1 }) < 0 ∧
    AddDurationToOrSubtractDurationFromPlainYearMonth builtinCalendarOps
        .subtract ⟨⟨2020, 1, 1⟩, CalendarId.iso8601⟩ { months := 1 } none =
      (do
        let intermediateDate ←
          (builtinCalendarOps CalendarId.iso8601).dateFromFields
            { (builtinCalendarOps CalendarId.iso8601).fieldsOf ⟨2020, 1, 1⟩
              with day := some 1 } .constrain
        let date ← lastDayOfMonthAnchor
          (builtinCalendarOps CalendarId.iso8601)
          ((builtinCalendarOps CalendarId.iso8601).fieldsOf ⟨2020, 1, 1⟩)
          intermediateDate
        let addedDate ← (builtinCalendarOps CalendarId.iso8601).dateAdd date
          (combinedDateDuration PlainYearMonthDuration.subtract
            { months := 1 })
          ((none : Option TemporalOverflow).getD .constrain)
        (builtinCalendarOps CalendarId.iso8601).yearMonthFromFields
          ((builtinCalendarOps CalendarId.iso8601).fieldsOf addedDate)
          ((none : Option TemporalOverflow).getD .constrain)) :=
  ⟨by decide,
    (addOrSubtract_anchor_spec builtinCalendarOps .subtract
      ⟨⟨2020, 1, 1⟩, CalendarId.iso8601⟩ { months := 1 } none).1 (by decide)⟩

end Temporal
